import Mathlib

/-!
Verification development for the wiegand-control client (src/WgCtl.ts).

The development shallowly embeds the WgCtl class: Node.js Buffers become a
length plus a byte-valued function, the Node write primitives keep their
range checks (they throw `RangeError` on out-of-range values, modelled as
`Except.error`), socket operations become an explicit `Effect` trace, and
the mutable instance fields (`ip`, `port`, `serial`, `serverIp`,
`serverPort`, plus which socket kind was supplied) become a `WgCtl`
structure that the methods transform.
-/

/-- Model of a Node.js Buffer: a fixed length together with the byte stored
at each index (indices at or beyond `len` are never read by the embedded
code). -/
structure Buf where
  len : Nat
  data : Nat → Nat

/-- Mirrors `Buffer.alloc(n)`: `n` zero bytes. -/
def Buf.alloc (n : Nat) : Buf := ⟨n, fun _ => 0⟩

/-- Mirrors `buf.writeUInt8(value, offset)`. Node checks that the value fits
in an unsigned byte and that the offset is in bounds, throwing a
`RangeError` otherwise; no silent wrap occurs. -/
def Buf.writeUInt8 (b : Buf) (v : Int) (off : Nat) : Except String Buf :=
  if 0 ≤ v ∧ v ≤ 255 ∧ off + 1 ≤ b.len then
    Except.ok ⟨b.len, fun i => if i = off then v.toNat else b.data i⟩
  else Except.error ("RangeError")

/-- Mirrors `buf.writeUInt16LE(value, offset)` with Node's range checks. -/
def Buf.writeUInt16LE (b : Buf) (v : Int) (off : Nat) : Except String Buf :=
  if 0 ≤ v ∧ v ≤ 65535 ∧ off + 2 ≤ b.len then
    Except.ok ⟨b.len, fun i =>
      if i = off then v.toNat % 256
      else if i = off + 1 then v.toNat / 256 % 256
      else b.data i⟩
  else Except.error ("RangeError")

/-- Mirrors `buf.writeUInt32LE(value, offset)` with Node's range checks. -/
def Buf.writeUInt32LE (b : Buf) (v : Int) (off : Nat) : Except String Buf :=
  if 0 ≤ v ∧ v ≤ 4294967295 ∧ off + 4 ≤ b.len then
    Except.ok ⟨b.len, fun i =>
      if i = off then v.toNat % 256
      else if i = off + 1 then v.toNat / 256 % 256
      else if i = off + 2 then v.toNat / 65536 % 256
      else if i = off + 3 then v.toNat / 16777216 % 256
      else b.data i⟩
  else Except.error ("RangeError")

/-- Mirrors `buf.fill(source, start, fin)` for a Buffer source. Node
requires `start <= fin <= buf.length` (otherwise `RangeError`) and rejects
an empty source over a non-empty range; within range the source pattern is
repeated cyclically. -/
def Buf.fill (b : Buf) (src : Buf) (start fin : Nat) : Except String Buf :=
  if b.len < fin ∨ fin < start then Except.error ("RangeError")
  else if src.len = 0 then
    (if start < fin then Except.error ("InvalidValue") else Except.ok b)
  else
    Except.ok ⟨b.len, fun i =>
      if start ≤ i ∧ i < fin then src.data ((i - start) % src.len)
      else b.data i⟩

/-- Value of one hex digit, mirroring Node's hex decoder. -/
def hexDigitVal (c : Char) : Option Nat :=
  if '0' ≤ c ∧ c ≤ '9' then Option.some (c.toNat - 48)
  else if 'a' ≤ c ∧ c ≤ 'f' then Option.some (c.toNat - 87)
  else if 'A' ≤ c ∧ c ≤ 'F' then Option.some (c.toNat - 55)
  else Option.none

/-- Node's hex string decoding: complete pairs of hex digits become bytes;
decoding stops at the first invalid pair or at a lone trailing digit. -/
def decodeHexPairs : List Char → List Nat
  | c1 :: c2 :: rest =>
    match hexDigitVal c1, hexDigitVal c2 with
    | Option.some h, Option.some l => (16 * h + l) :: decodeHexPairs rest
    | _, _ => []
  | _ => []

/-- Mirrors `buf.write(string, offset, "hex")`: the string is hex-decoded
and as many whole bytes as fit between `offset` and the end of the buffer
are written; an offset beyond the buffer throws, but a long string is
silently truncated. -/
def Buf.writeHexAt (b : Buf) (s : List Char) (off : Nat) : Except String Buf :=
  if b.len < off then Except.error ("RangeError")
  else
    Except.ok ⟨b.len, fun i =>
      if off ≤ i ∧ i < off + min (decodeHexPairs s).length (b.len - off)
      then (decodeHexPairs s).getD (i - off) 0
      else b.data i⟩

/-- Mirrors `Buffer.from(string, "hex")`. -/
def Buf.fromHex (s : List Char) : Buf :=
  ⟨(decodeHexPairs s).length, fun i => (decodeHexPairs s).getD i 0⟩

/-- Whitespace class of the JavaScript regular expression `\s`. -/
def isJsWhitespace (c : Char) : Bool :=
  c == ' ' || c == '\t' || c == '\n' || c == '\r' ||
  c.toNat == 11 || c.toNat == 12 || c.toNat == 160 || c.toNat == 5760 ||
  (8192 ≤ c.toNat && c.toNat ≤ 8202) ||
  c.toNat == 8232 || c.toNat == 8233 || c.toNat == 8239 ||
  c.toNat == 8287 || c.toNat == 12288 || c.toNat == 65279

/-- Mirrors `payload.replace(/\s/g, "")`: every whitespace character is
removed. -/
def stripJsWs (cs : List Char) : List Char :=
  cs.filter (fun c => !isJsWhitespace c)

/-- The `payload` argument of `WgCtl.packData`: absent, a number, a Buffer,
or a (hex) string. -/
inductive Payload where
  | none
  | num (v : Int)
  | buf (b : Buf)
  | str (s : List Char)

/-- JavaScript truthiness of a `string | number | Buffer | undefined`
payload: `undefined`, `0` and the empty string are falsy; every Buffer
object is truthy. -/
def Payload.truthy : Payload → Bool
  | Payload.none => false
  | Payload.num v => v != 0
  | Payload.buf _ => true
  | Payload.str s => !s.isEmpty

/-- The serial write of `packData` (src/WgCtl.ts lines 99-101):
`if (this.serial) data.writeUInt32LE(this.serial, 4)`, where an undefined
or zero serial is falsy. -/
def serialStep (d1 : Buf) (s : Option Nat) : Except String Buf :=
  match s with
  | Option.some v =>
      if v = 0 then Except.ok d1 else d1.writeUInt32LE (v : Int) 4
  | Option.none => Except.ok d1

/-- The payload branch of `packData` (src/WgCtl.ts lines 102-112): a truthy
Buffer is filled in verbatim at offset 8, a truthy number is written as one
byte at offset 8, any other truthy value is treated as a hex string with
whitespace stripped; a falsy payload writes nothing. -/
def payloadStep (d2 : Buf) (p : Payload) : Except String Buf :=
  if Payload.truthy p then
    match p with
    | Payload.buf pb => d2.fill pb 8 (8 + pb.len)
    | Payload.num v => d2.writeUInt8 v 8
    | Payload.str cs => d2.writeHexAt (stripJsWs cs) 8
    | Payload.none => Except.ok d2
  else Except.ok d2

/-- Mirrors `WgCtl.packData` (src/WgCtl.ts lines 94-122): a zeroed 64-byte
buffer, marker `0x17` at offset 0, the function code at offset 1, the
serial (when truthy) little-endian at offset 4, then the payload branch.
The diagnostic `console.log` is not part of the functional contract and is
not modelled. -/
def packData (s : Option Nat) (fc : Int) (p : Payload) : Except String Buf :=
  Except.bind ((Buf.alloc 64).writeUInt8 23 0) (fun d0 =>
  Except.bind (d0.writeUInt8 fc 1) (fun d1 =>
  Except.bind (serialStep d1 s) (fun d2 =>
  payloadStep d2 p)))

/-- Modelled from the spec: `ipToHex` lives in src/utils.ts, which is not
among the sources; per the spec it converts a dotted-quad string into its
4-byte binary form, rendered here as the 8-character hex string that
`buf.write(..., "hex")` then decodes. -/
def byteToHexChars (n : Nat) : List Char :=
  [if n / 16 % 16 < 10 then Char.ofNat (48 + n / 16 % 16)
   else Char.ofNat (87 + n / 16 % 16),
   if n % 16 < 10 then Char.ofNat (48 + n % 16)
   else Char.ofNat (87 + n % 16)]

/-- Modelled from the spec: the `k`-th byte of the dotted-quad string, as
read by the external IP encoder collaborator. -/
def ipOctet (ip : String) (k : Nat) : Nat :=
  ((ip.splitOn (".")).map (fun t => t.toNat?.getD 0)).getD k 0 % 256

/-- Modelled from the spec: the dotted-quad-to-4-byte conversion of the
external IP encoder collaborator (src/utils.ts `ipToHex`). Each dot
separated component becomes one byte, rendered as two hex characters. -/
def ipToHex (ip : String) : String :=
  String.mk
    (byteToHexChars (ipOctet ip 0) ++ byteToHexChars (ipOctet ip 1) ++
     byteToHexChars (ipOctet ip 2) ++ byteToHexChars (ipOctet ip 3))

/-- The mutable instance fields of a `WgCtl` object, plus which kind of
socket was supplied at construction (`isLocal = true` means a UDP socket is
held in `localSocket`, `false` means a TCP socket in `remoteSocket`). -/
structure WgCtl where
  ip : String
  port : Nat
  serial : Option Nat
  isLocal : Bool
  serverIp : Option String
  serverPort : Option Nat

/-- Observable socket operations performed by a send. -/
inductive Effect where
  | setBroadcast (flag : Bool)
  | udpSend (data : Buf) (port : Nat) (address : String)
  | tcpWrite (data : Buf)

/-- The frame carried by an effect, if any. -/
def frameOfEffect : Effect → Option Buf
  | Effect.setBroadcast _ => Option.none
  | Effect.udpSend d _ _ => Option.some d
  | Effect.tcpWrite d => Option.some d

/-- All frames carried by a trace of effects. -/
def framesOf (fx : List Effect) : List Buf := fx.filterMap frameOfEffect

/-- The frame carried by the last effect of a trace. -/
def lastFrame (fx : List Effect) : Option Buf :=
  fx.getLast?.bind frameOfEffect

/-- JavaScript truthiness of an optional string field: `undefined` and the
empty string are falsy. -/
def truthyStr (o : Option String) : Bool :=
  match o with
  | Option.none => false
  | Option.some s => !s.isEmpty

/-- JavaScript truthiness of an optional numeric field: `undefined` and `0`
are falsy. -/
def truthyNat (o : Option Nat) : Bool :=
  match o with
  | Option.none => false
  | Option.some n => n != 0

/-- Mirrors the `WgCtl` constructor (src/WgCtl.ts lines 17-46). Instance
fields start out undefined; for a UDP socket the `serverIp`/`serverPort`
arguments are stored, while for a TCP socket the guard reads the instance
fields `this.serverIp`/`this.serverPort` — which were never assigned in
that branch — before throwing. The automatic `detect()` kick-off is
modelled separately by `detect`. -/
def WgCtl.construct (isUdp : Bool) (serial : Option Nat)
    (serverIp : Option String) (serverPort : Option Nat)
    (ip : String) (port : Nat) : Except String WgCtl :=
  let c : WgCtl :=
    { ip := ip, port := port, serial := serial, isLocal := isUdp,
      serverIp := Option.none, serverPort := Option.none }
  if isUdp then
    Except.ok { c with serverIp := serverIp, serverPort := serverPort }
  else
    if truthyStr c.serverIp || truthyNat c.serverPort then
      Except.error ("Server ip and port only available for local mode.")
    else
      Except.ok c

/-- Mirrors `WgCtl.localSendData` (src/WgCtl.ts lines 143-164): with a
falsy cached ip, broadcast mode is enabled and the frame goes to
`255.255.255.255`; otherwise it goes unicast to the cached ip, on the
configured port in both cases. -/
def localSendData (c : WgCtl) (data : Buf) : List Effect :=
  (if c.ip = "" then [Effect.setBroadcast true] else []) ++
  [Effect.udpSend data c.port (if c.ip = "" then ("255.255.255.255") else c.ip)]

/-- Mirrors `WgCtl.sendData` (src/WgCtl.ts lines 124-132): pack the frame,
then route it through the remote socket when one is held, else through the
local socket. -/
def sendData (c : WgCtl) (fc : Int) (p : Payload) : Except String (List Effect) :=
  Except.bind (packData c.serial fc p) (fun d =>
    Except.ok (if c.isLocal then localSendData c d else [Effect.tcpWrite d]))

/-- Mirrors `WgCtl.search` (src/WgCtl.ts lines 166-168). -/
def WgCtl.search (c : WgCtl) : Except String (WgCtl × List Effect) :=
  Except.bind (sendData c 0x94 Payload.none) (fun fx => Except.ok (c, fx))

/-- Mirrors `WgCtl.openDoor` (src/WgCtl.ts lines 170-172). -/
def WgCtl.openDoor (c : WgCtl) (door : Int) : Except String (WgCtl × List Effect) :=
  Except.bind (sendData c 0x40 (Payload.num door)) (fun fx => Except.ok (c, fx))

/-- Mirrors `WgCtl.getDate` (src/WgCtl.ts lines 174-176). -/
def WgCtl.getDate (c : WgCtl) : Except String (WgCtl × List Effect) :=
  Except.bind (sendData c 0x32 Payload.none) (fun fx => Except.ok (c, fx))

/-- Mirrors `WgCtl.setDate` (src/WgCtl.ts lines 178-180). The BCD date
encoding is the external `buildBcdDate` collaborator (src/utils.ts, not
among the sources); its output buffer is taken as the argument. -/
def WgCtl.setDate (c : WgCtl) (bcd : Buf) : Except String (WgCtl × List Effect) :=
  Except.bind (sendData c 0x30 (Payload.buf bcd)) (fun fx => Except.ok (c, fx))

/-- The payload built by `WgCtl.setAuth` (src/WgCtl.ts lines 182-191):
16 bytes, uint32-LE card number at 0, hex `20190101` at 4, hex `20291231`
at 8, and one flag byte per door at offsets 12-15. -/
def setAuthPayload (cardNo door : Int) : Except String Buf :=
  Except.bind ((Buf.alloc 16).writeUInt32LE cardNo 0) (fun p0 =>
  Except.bind (p0.writeHexAt (("20190101").data) 4) (fun p1 =>
  Except.bind (p1.writeHexAt (("20291231").data) 8) (fun p2 =>
  Except.bind (p2.writeUInt8 (if door = 1 then 1 else 0) 12) (fun p3 =>
  Except.bind (p3.writeUInt8 (if door = 2 then 1 else 0) 13) (fun p4 =>
  Except.bind (p4.writeUInt8 (if door = 3 then 1 else 0) 14) (fun p5 =>
  p5.writeUInt8 (if door = 4 then 1 else 0) 15))))))

/-- Mirrors `WgCtl.setAuth` (src/WgCtl.ts lines 182-192). -/
def WgCtl.setAuth (c : WgCtl) (cardNo door : Int) : Except String (WgCtl × List Effect) :=
  Except.bind (setAuthPayload cardNo door) (fun pay =>
  Except.bind (sendData c 0x50 (Payload.buf pay)) (fun fx => Except.ok (c, fx)))

/-- Mirrors `WgCtl.getAuth` (src/WgCtl.ts lines 194-198): 56-byte payload,
uint32-LE card number at 0, rest zero. -/
def WgCtl.getAuth (c : WgCtl) (cardNo : Int) : Except String (WgCtl × List Effect) :=
  Except.bind ((Buf.alloc 56).writeUInt32LE cardNo 0) (fun pay =>
  Except.bind (sendData c 0x5a (Payload.buf pay)) (fun fx => Except.ok (c, fx)))

/-- Mirrors `WgCtl.removeAuth` (src/WgCtl.ts lines 200-204). -/
def WgCtl.removeAuth (c : WgCtl) (cardNo : Int) : Except String (WgCtl × List Effect) :=
  Except.bind ((Buf.alloc 56).writeUInt32LE cardNo 0) (fun pay =>
  Except.bind (sendData c 0x52 (Payload.buf pay)) (fun fx => Except.ok (c, fx)))

/-- Mirrors `WgCtl.clearAuth` (src/WgCtl.ts lines 206-209): fixed magic
payload `55 AA AA 55`. -/
def WgCtl.clearAuth (c : WgCtl) : Except String (WgCtl × List Effect) :=
  Except.bind (sendData c 0x54 (Payload.buf (Buf.fromHex (("55aaaa55").data))))
    (fun fx => Except.ok (c, fx))

/-- Mirrors `WgCtl.setServerAddress` (src/WgCtl.ts lines 211-217): 7-byte
payload, 4-byte IP at 0, uint16-LE port at 4, interval byte at 6. -/
def WgCtl.setServerAddress (c : WgCtl) (ip : String) (port interval : Int) :
    Except String (WgCtl × List Effect) :=
  Except.bind ((Buf.alloc 7).writeHexAt ((ipToHex ip).data) 0) (fun p0 =>
  Except.bind (p0.writeUInt16LE port 4) (fun p1 =>
  Except.bind (p1.writeUInt8 interval 6) (fun p2 =>
  Except.bind (sendData c 0x90 (Payload.buf p2)) (fun fx => Except.ok (c, fx)))))

/-- The payload built by `WgCtl.setAddress` (src/WgCtl.ts lines 219-225):
16 bytes, 4-byte ip, subnet and gateway at offsets 0, 4 and 8, and the
magic token at 12-15. -/
def setAddressPayload (ip subnet gateway : String) : Except String Buf :=
  Except.bind ((Buf.alloc 16).writeHexAt ((ipToHex ip).data) 0) (fun p0 =>
  Except.bind (p0.writeHexAt ((ipToHex subnet).data) 4) (fun p1 =>
  Except.bind (p1.writeHexAt ((ipToHex gateway).data) 8) (fun p2 =>
  p2.writeHexAt (("55aaaa55").data) 12)))

/-- Mirrors `WgCtl.setAddress` (src/WgCtl.ts lines 219-227): send the
frame, then clear the cached device ip (`this.ip = ""`). -/
def WgCtl.setAddress (c : WgCtl) (ip subnet gateway : String) :
    Except String (WgCtl × List Effect) :=
  Except.bind (setAddressPayload ip subnet gateway) (fun pay =>
  Except.bind (sendData c 0x96 (Payload.buf pay)) (fun fx =>
  Except.ok ({ c with ip := "" }, fx)))

/-- Mirrors `WgCtl.getServerAddress` (src/WgCtl.ts lines 229-231). -/
def WgCtl.getServerAddress (c : WgCtl) : Except String (WgCtl × List Effect) :=
  Except.bind (sendData c 0x92 Payload.none) (fun fx => Except.ok (c, fx))

/-- The fields of a decoded discovery reply that the core reads. The
decoding itself (`parseData`) is the external response-decoder collaborator
(src/utils.ts, not among the sources). -/
structure Reply where
  serial : Nat
  ip : String

/-- Mirrors the `once("message", ...)` handler inside `WgCtl.detect`
(src/WgCtl.ts lines 59-82): a reply whose serial differs from the instance
serial is ignored (the promise stays pending, `false`); on a matching
serial the sentinel ip `192.168.0.0` clears the cached ip while any other
ip is cached, and the promise resolves (`true`). -/
def detectHandleReply (c : WgCtl) (r : Reply) : WgCtl × Bool :=
  if Option.some r.serial ≠ c.serial then (c, false)
  else if r.ip = ("192.168.0.0") then ({ c with ip := "" }, true)
  else ({ c with ip := r.ip }, true)

/-- Mirrors `WgCtl.detect` (src/WgCtl.ts lines 48-92) observed up to the
first incoming message `r`: guard on truthy `serverIp`/`serverPort`, emit
the `search` broadcast, process the first reply, and — only once the
promise has resolved — issue `setServerAddress` with the configured
callback target. With a falsy guard field the method throws; with a
mismatched-serial reply the promise stays pending (`false`) and no
`setServerAddress` is issued. -/
def detect (c : WgCtl) (r : Reply) : Except String (WgCtl × Bool × List Effect) :=
  match c.serverIp, c.serverPort with
  | Option.some sip, Option.some sp =>
    if sip = "" ∨ sp = 0 then
      Except.error ("Detect is not available when server ip and port undefined.")
    else
      Except.bind (sendData c 0x94 Payload.none) (fun searchFx =>
        if c.isLocal then
          if (detectHandleReply c r).2 then
            Except.bind
              ((detectHandleReply c r).1.setServerAddress sip (sp : Int) 0)
              (fun out => Except.ok (out.1, true, searchFx ++ out.2))
          else Except.ok ((detectHandleReply c r).1, false, searchFx)
        else Except.ok (c, false, searchFx))
  | _, _ =>
      Except.error ("Detect is not available when server ip and port undefined.")

/-- The instance state after a method call: on a thrown error no field
assignment has happened, so the state is unchanged. -/
def stateAfter (c : WgCtl) (r : Except String (WgCtl × List Effect)) : WgCtl :=
  match r with
  | Except.ok x => x.1
  | Except.error _ => c

/-- Boolean success of an `Except` computation. -/
def exceptOk {ε α : Type} (x : Except ε α) : Bool :=
  match x with
  | Except.ok _ => true
  | Except.error _ => false

/-- The serial values representable in the frame's uint32 field; the data
model declares `serial` an optional uint32. -/
def wfSerial (s : Option Nat) : Prop :=
  match s with
  | Option.none => True
  | Option.some v => v ≤ 4294967295

/-- A sample Local-transport instance: no cached ip, default port, serial
1001, callback target 10.0.0.5:9000. Used to instantiate the theorems at
concrete inputs. -/
def sampleLocal : WgCtl :=
  { ip := "", port := 60000, serial := Option.some 1001, isLocal := true,
    serverIp := Option.some ("10.0.0.5"), serverPort := Option.some 9000 }

/-- A sample Local-transport instance with a known (cached) device ip. -/
def sampleKnown : WgCtl :=
  { ip := "10.0.0.42", port := 60000, serial := Option.some 1001,
    isLocal := true, serverIp := Option.none, serverPort := Option.none }

/-! ### Helper lemmas about the Buffer primitives -/

lemma except_ok_bind {ε α β : Type} (a : α) (f : α → Except ε β) :
    Except.bind (Except.ok a) f = f a := rfl

lemma except_bind_ok {ε α β : Type} {x : Except ε α} {f : α → Except ε β} {b : β}
    (h : Except.bind x f = Except.ok b) :
    ∃ a, x = Except.ok a ∧ f a = Except.ok b := by
  cases x with
  | error e => exact Except.noConfusion h
  | ok a => exact ⟨a, rfl, h⟩

lemma writeUInt8_eq {b : Buf} {v : Int} {off : Nat}
    (h1 : 0 ≤ v) (h2 : v ≤ 255) (h3 : off + 1 ≤ b.len) :
    b.writeUInt8 v off =
      Except.ok ⟨b.len, fun i => if i = off then v.toNat else b.data i⟩ := by
  unfold Buf.writeUInt8; rw [if_pos ⟨h1, h2, h3⟩]

lemma writeUInt8_inv {b : Buf} {v : Int} {off : Nat} {b2 : Buf}
    (h : b.writeUInt8 v off = Except.ok b2) :
    0 ≤ v ∧ v ≤ 255 ∧ off + 1 ≤ b.len ∧ b2.len = b.len ∧
    b2.data off = v.toNat ∧ ∀ i, i ≠ off → b2.data i = b.data i := by
  unfold Buf.writeUInt8 at h
  by_cases hc : 0 ≤ v ∧ v ≤ 255 ∧ off + 1 ≤ b.len
  · rw [if_pos hc] at h
    injection h with h4
    subst h4
    exact ⟨hc.1, hc.2.1, hc.2.2, rfl, by simp, fun i hi => by simp [hi]⟩
  · rw [if_neg hc] at h
    exact Except.noConfusion h

lemma writeUInt16LE_eq {b : Buf} {v : Int} {off : Nat}
    (h1 : 0 ≤ v) (h2 : v ≤ 65535) (h3 : off + 2 ≤ b.len) :
    b.writeUInt16LE v off = Except.ok ⟨b.len, fun i =>
      if i = off then v.toNat % 256
      else if i = off + 1 then v.toNat / 256 % 256
      else b.data i⟩ := by
  unfold Buf.writeUInt16LE; rw [if_pos ⟨h1, h2, h3⟩]

lemma writeUInt32LE_eq {b : Buf} {v : Int} {off : Nat}
    (h1 : 0 ≤ v) (h2 : v ≤ 4294967295) (h3 : off + 4 ≤ b.len) :
    b.writeUInt32LE v off = Except.ok ⟨b.len, fun i =>
      if i = off then v.toNat % 256
      else if i = off + 1 then v.toNat / 256 % 256
      else if i = off + 2 then v.toNat / 65536 % 256
      else if i = off + 3 then v.toNat / 16777216 % 256
      else b.data i⟩ := by
  unfold Buf.writeUInt32LE; rw [if_pos ⟨h1, h2, h3⟩]

lemma writeUInt32LE_inv {b : Buf} {v : Int} {off : Nat} {b2 : Buf}
    (h : b.writeUInt32LE v off = Except.ok b2) :
    0 ≤ v ∧ v ≤ 4294967295 ∧ off + 4 ≤ b.len ∧ b2.len = b.len ∧
    b2.data off = v.toNat % 256 ∧ b2.data (off + 1) = v.toNat / 256 % 256 ∧
    b2.data (off + 2) = v.toNat / 65536 % 256 ∧
    b2.data (off + 3) = v.toNat / 16777216 % 256 ∧
    ∀ i, i < off ∨ off + 4 ≤ i → b2.data i = b.data i := by
  unfold Buf.writeUInt32LE at h
  by_cases hc : 0 ≤ v ∧ v ≤ 4294967295 ∧ off + 4 ≤ b.len
  · rw [if_pos hc] at h
    injection h with h4
    subst h4
    refine ⟨hc.1, hc.2.1, hc.2.2, rfl, by simp, ?_, ?_, ?_, ?_⟩
    · simp [show off + 1 ≠ off by omega]
    · simp [show off + 2 ≠ off by omega, show off + 2 ≠ off + 1 by omega]
    · simp [show off + 3 ≠ off by omega, show off + 3 ≠ off + 1 by omega,
            show off + 3 ≠ off + 2 by omega]
    · intro i hi
      simp [show i ≠ off by omega, show i ≠ off + 1 by omega,
            show i ≠ off + 2 by omega, show i ≠ off + 3 by omega]
  · rw [if_neg hc] at h
    exact Except.noConfusion h

lemma fill_eq {b src : Buf} {start fin : Nat}
    (h1 : fin ≤ b.len) (h2 : start ≤ fin) (h3 : src.len ≠ 0) :
    b.fill src start fin = Except.ok ⟨b.len, fun i =>
      if start ≤ i ∧ i < fin then src.data ((i - start) % src.len)
      else b.data i⟩ := by
  unfold Buf.fill
  rw [if_neg (by omega), if_neg h3]

lemma fill_empty_src {b src : Buf} {start fin : Nat}
    (h1 : fin ≤ b.len) (h2 : start = fin) (h3 : src.len = 0) :
    b.fill src start fin = Except.ok b := by
  unfold Buf.fill
  rw [if_neg (by omega), if_pos h3, if_neg (by omega)]

lemma fill_oob {b src : Buf} {start fin : Nat} (h1 : b.len < fin) :
    b.fill src start fin = Except.error ("RangeError") := by
  unfold Buf.fill
  rw [if_pos (Or.inl h1)]

lemma fill_inv {b src : Buf} {start fin : Nat} {b2 : Buf}
    (h : b.fill src start fin = Except.ok b2) :
    fin ≤ b.len ∧ b2.len = b.len ∧
    (∀ i, i < start ∨ fin ≤ i → b2.data i = b.data i) ∧
    (src.len ≠ 0 → ∀ i, start ≤ i → i < fin →
       b2.data i = src.data ((i - start) % src.len)) := by
  unfold Buf.fill at h
  by_cases hc : b.len < fin ∨ fin < start
  · rw [if_pos hc] at h; exact Except.noConfusion h
  · rw [if_neg hc] at h
    by_cases hsrc : src.len = 0
    · rw [if_pos hsrc] at h
      by_cases hsf : start < fin
      · rw [if_pos hsf] at h; exact Except.noConfusion h
      · rw [if_neg hsf] at h
        injection h with h4
        subst h4
        exact ⟨by omega, rfl, fun i _ => rfl, fun hne => absurd hsrc hne⟩
    · rw [if_neg hsrc] at h
      injection h with h4
      subst h4
      refine ⟨by omega, rfl, ?_, ?_⟩
      · intro i hi
        simp only [Buf.data]
        rw [if_neg (by omega)]
      · intro _ i hi1 hi2
        simp only [Buf.data]
        rw [if_pos ⟨hi1, hi2⟩]

lemma writeHexAt_eq {b : Buf} {s : List Char} {off : Nat} (h : off ≤ b.len) :
    b.writeHexAt s off = Except.ok ⟨b.len, fun i =>
      if off ≤ i ∧ i < off + min (decodeHexPairs s).length (b.len - off)
      then (decodeHexPairs s).getD (i - off) 0
      else b.data i⟩ := by
  unfold Buf.writeHexAt
  rw [if_neg (by omega)]

lemma writeHexAt_inv {b : Buf} {s : List Char} {off : Nat} {b2 : Buf}
    (h : b.writeHexAt s off = Except.ok b2) :
    off ≤ b.len ∧ b2.len = b.len ∧ ∀ i, i < off → b2.data i = b.data i := by
  unfold Buf.writeHexAt at h
  by_cases hc : b.len < off
  · rw [if_pos hc] at h; exact Except.noConfusion h
  · rw [if_neg hc] at h
    injection h with h4
    subst h4
    exact ⟨by omega, rfl, fun i hi => by simp only [Buf.data]; rw [if_neg (by omega)]⟩

/-! ### Structure of packData -/

lemma serialStep_inv {d1 : Buf} {s : Option Nat} {d2 : Buf}
    (h : serialStep d1 s = Except.ok d2) :
    d2.len = d1.len ∧ (∀ i, i < 4 ∨ 8 ≤ i → d2.data i = d1.data i) ∧
    ((s = Option.none ∨ s = Option.some 0) → d2 = d1) ∧
    (∀ v, s = Option.some v → v ≠ 0 → v ≤ 4294967295 ∧
       d2.data 4 = v % 256 ∧ d2.data 5 = v / 256 % 256 ∧
       d2.data 6 = v / 65536 % 256 ∧ d2.data 7 = v / 16777216 % 256) := by
  cases s with
  | none =>
      injection h with h4
      subst h4
      exact ⟨rfl, fun _ _ => rfl, fun _ => rfl, fun v hv => Option.noConfusion hv⟩
  | some v =>
      have h : (if v = 0 then Except.ok d1
                else d1.writeUInt32LE (v : Int) 4) = Except.ok d2 := h
      by_cases hv : v = 0
      · rw [if_pos hv] at h
        injection h with h4
        subst h4
        refine ⟨rfl, fun _ _ => rfl, fun _ => rfl, fun w hw hne => ?_⟩
        injection hw with hw2
        subst hw2
        exact absurd hv hne
      · rw [if_neg hv] at h
        have hi := writeUInt32LE_inv h
        have htn : ((v : Int)).toNat = v := rfl
        refine ⟨hi.2.2.2.1, ?_, ?_, ?_⟩
        · intro i hii
          exact hi.2.2.2.2.2.2.2.2 i (by omega)
        · intro hc
          rcases hc with hc | hc
          · exact Option.noConfusion hc
          · injection hc with hc2; exact absurd hc2 hv
        · intro w hw hne
          have hw2 : v = w := by injection hw
          subst hw2
          have hb : ((v : Int)) ≤ 4294967295 := hi.2.1
          refine ⟨by omega, ?_, ?_, ?_, ?_⟩
          · rw [← htn]; exact hi.2.2.2.2.1
          · rw [← htn]; exact hi.2.2.2.2.2.1
          · rw [← htn]; exact hi.2.2.2.2.2.2.1
          · rw [← htn]; exact hi.2.2.2.2.2.2.2.1

lemma payloadStep_inv {d2 : Buf} {p : Payload} {d : Buf}
    (h : payloadStep d2 p = Except.ok d) :
    d.len = d2.len ∧ (∀ i, i < 8 → d.data i = d2.data i) := by
  unfold payloadStep at h
  by_cases ht : Payload.truthy p
  · rw [if_pos ht] at h
    cases p with
    | none =>
        injection h with h4
        subst h4
        exact ⟨rfl, fun _ _ => rfl⟩
    | num v =>
        have hi := writeUInt8_inv h
        exact ⟨hi.2.2.2.1, fun i hii => hi.2.2.2.2.2 i (by omega)⟩
    | buf pb =>
        have hi := fill_inv h
        exact ⟨hi.2.1, fun i hii => hi.2.2.1 i (Or.inl (by omega))⟩
    | str cs =>
        have hi := writeHexAt_inv h
        exact ⟨hi.2.1, fun i hii => hi.2.2 i (by omega)⟩
  · rw [if_neg ht] at h
    injection h with h4
    subst h4
    exact ⟨rfl, fun _ _ => rfl⟩

lemma packData_inv {s : Option Nat} {fc : Int} {p : Payload} {d : Buf}
    (h : packData s fc p = Except.ok d) :
    d.len = 64 ∧ d.data 0 = 23 ∧ d.data 1 = fc.toNat ∧ 0 ≤ fc ∧ fc ≤ 255 ∧
    d.data 2 = 0 ∧ d.data 3 = 0 ∧
    ((s = Option.none ∨ s = Option.some 0) →
       d.data 4 = 0 ∧ d.data 5 = 0 ∧ d.data 6 = 0 ∧ d.data 7 = 0) ∧
    (∀ v, s = Option.some v → v ≠ 0 → v ≤ 4294967295 ∧
       d.data 4 = v % 256 ∧ d.data 5 = v / 256 % 256 ∧
       d.data 6 = v / 65536 % 256 ∧ d.data 7 = v / 16777216 % 256) := by
  unfold packData at h
  obtain ⟨d0, h0, h⟩ := except_bind_ok h
  obtain ⟨d1, h1, h⟩ := except_bind_ok h
  obtain ⟨d2, h2, h⟩ := except_bind_ok h
  have i0 := writeUInt8_inv h0
  have i1 := writeUInt8_inv h1
  have i2 := serialStep_inv h2
  have i3 := payloadStep_inv h
  have hl : d.len = 64 := by
    rw [i3.1, i2.1, i1.2.2.2.1, i0.2.2.2.1]
    rfl
  have low : ∀ i, i < 8 → d.data i = d2.data i := i3.2
  have l2 : ∀ i, i < 4 → d2.data i = d1.data i := fun i hi => i2.2.1 i (Or.inl hi)
  have hd0 : ∀ i, i ≠ 0 → d0.data i = 0 := fun i hi => i0.2.2.2.2.2 i hi
  refine ⟨hl, ?_, ?_, i1.1, i1.2.1, ?_, ?_, ?_, ?_⟩
  · rw [low 0 (by omega), l2 0 (by omega), i1.2.2.2.2.2 0 (by omega),
        i0.2.2.2.2.1]
    rfl
  · rw [low 1 (by omega), l2 1 (by omega), i1.2.2.2.2.1]
  · rw [low 2 (by omega), l2 2 (by omega), i1.2.2.2.2.2 2 (by omega),
        hd0 2 (by omega)]
  · rw [low 3 (by omega), l2 3 (by omega), i1.2.2.2.2.2 3 (by omega),
        hd0 3 (by omega)]
  · intro hs
    have hd21 : d2 = d1 := i2.2.2.1 hs
    have hnib : ∀ i, 4 ≤ i → i ≤ 7 → d.data i = 0 := by
      intro i h4 h7
      rw [low i (by omega), hd21, i1.2.2.2.2.2 i (by omega), hd0 i (by omega)]
    exact ⟨hnib 4 (by omega) (by omega), hnib 5 (by omega) (by omega),
           hnib 6 (by omega) (by omega), hnib 7 (by omega) (by omega)⟩
  · intro v hv hne
    have hi := i2.2.2.2 v hv hne
    exact ⟨hi.1, by rw [low 4 (by omega)]; exact hi.2.1,
           by rw [low 5 (by omega)]; exact hi.2.2.1,
           by rw [low 6 (by omega)]; exact hi.2.2.2.1,
           by rw [low 7 (by omega)]; exact hi.2.2.2.2⟩

lemma packData_eq_payloadStep (s : Option Nat) (fc : Int) (p : Payload)
    (hs : wfSerial s) (hf0 : 0 ≤ fc) (hf1 : fc ≤ 255) :
    ∃ d2 : Buf, packData s fc p = payloadStep d2 p ∧ d2.len = 64 ∧
      (∀ i, 8 ≤ i → d2.data i = 0) := by
  have e0 : (Buf.alloc 64).writeUInt8 23 0 =
      Except.ok ⟨64, fun i => if i = 0 then 23 else 0⟩ :=
    writeUInt8_eq (by norm_num) (by norm_num) (by norm_num [Buf.alloc])
  have e1 : Buf.writeUInt8 ⟨64, fun i => if i = 0 then 23 else 0⟩ fc 1 =
      Except.ok ⟨64, fun i => if i = 1 then fc.toNat
                              else if i = 0 then 23 else 0⟩ :=
    writeUInt8_eq hf0 hf1 (by norm_num)
  cases s with
  | none =>
      refine ⟨⟨64, fun i => if i = 1 then fc.toNat else if i = 0 then 23 else 0⟩,
              ?_, rfl, ?_⟩
      · unfold packData
        rw [e0, except_ok_bind, e1, except_ok_bind]
        rfl
      · intro i hi
        show (if i = 1 then fc.toNat else if i = 0 then 23 else 0) = 0
        rw [if_neg (by omega), if_neg (by omega)]
  | some v =>
      by_cases hv : v = 0
      · subst hv
        refine ⟨⟨64, fun i => if i = 1 then fc.toNat else if i = 0 then 23 else 0⟩,
                ?_, rfl, ?_⟩
        · unfold packData
          rw [e0, except_ok_bind, e1, except_ok_bind]
          rfl
        · intro i hi
          show (if i = 1 then fc.toNat else if i = 0 then 23 else 0) = 0
          rw [if_neg (by omega), if_neg (by omega)]
      · have hvle : v ≤ 4294967295 := hs
        have e2 : serialStep
            ⟨64, fun i => if i = 1 then fc.toNat else if i = 0 then 23 else 0⟩
            (Option.some v) =
            Except.ok ⟨64, fun i =>
              if i = 4 then v % 256
              else if i = 5 then v / 256 % 256
              else if i = 6 then v / 65536 % 256
              else if i = 7 then v / 16777216 % 256
              else if i = 1 then fc.toNat else if i = 0 then 23 else 0⟩ := by
          show (if v = 0 then Except.ok _
                else Buf.writeUInt32LE _ (v : Int) 4) = _
          rw [if_neg hv]
          exact writeUInt32LE_eq (by omega) (by omega) (by norm_num)
        refine ⟨⟨64, fun i =>
              if i = 4 then v % 256
              else if i = 5 then v / 256 % 256
              else if i = 6 then v / 65536 % 256
              else if i = 7 then v / 16777216 % 256
              else if i = 1 then fc.toNat else if i = 0 then 23 else 0⟩,
            ?_, rfl, ?_⟩
        · unfold packData
          rw [e0, except_ok_bind, e1, except_ok_bind, e2, except_ok_bind]
        · intro i hi
          show (if i = 4 then v % 256
                else if i = 5 then v / 256 % 256
                else if i = 6 then v / 65536 % 256
                else if i = 7 then v / 16777216 % 256
                else if i = 1 then fc.toNat else if i = 0 then 23 else 0) = 0
          rw [if_neg (by omega), if_neg (by omega), if_neg (by omega),
              if_neg (by omega), if_neg (by omega), if_neg (by omega)]

lemma packData_none_ok (s : Option Nat) (fc : Int)
    (hs : wfSerial s) (hf0 : 0 ≤ fc) (hf1 : fc ≤ 255) :
    ∃ d, packData s fc Payload.none = Except.ok d ∧
      ∀ i, 8 ≤ i → d.data i = 0 := by
  obtain ⟨d2, he, hlen, hz⟩ := packData_eq_payloadStep s fc Payload.none hs hf0 hf1
  exact ⟨d2, by rw [he]; rfl, hz⟩

lemma packData_num_ok (s : Option Nat) (fc v : Int)
    (hs : wfSerial s) (hf0 : 0 ≤ fc) (hf1 : fc ≤ 255)
    (hv0 : 0 ≤ v) (hv1 : v ≤ 255) :
    ∃ d, packData s fc (Payload.num v) = Except.ok d ∧ d.data 8 = v.toNat := by
  obtain ⟨d2, he, hlen, hz⟩ :=
    packData_eq_payloadStep s fc (Payload.num v) hs hf0 hf1
  by_cases hv : v = 0
  · subst hv
    refine ⟨d2, by rw [he]; rfl, ?_⟩
    rw [hz 8 (by omega)]
    rfl
  · refine ⟨⟨d2.len, fun i => if i = 8 then v.toNat else d2.data i⟩, ?_, by simp⟩
    rw [he]
    unfold payloadStep
    rw [if_pos (by simp [Payload.truthy, hv])]
    exact writeUInt8_eq hv0 hv1 (by omega)

lemma packData_num_err (s : Option Nat) (fc v : Int)
    (hs : wfSerial s) (hf0 : 0 ≤ fc) (hf1 : fc ≤ 255)
    (hv : v < 0 ∨ 255 < v) :
    packData s fc (Payload.num v) = Except.error ("RangeError") := by
  obtain ⟨d2, he, hlen, hz⟩ :=
    packData_eq_payloadStep s fc (Payload.num v) hs hf0 hf1
  rw [he]
  unfold payloadStep
  rw [if_pos (by simp [Payload.truthy]; omega)]
  show d2.writeUInt8 v 8 = Except.error ("RangeError")
  unfold Buf.writeUInt8
  rw [if_neg (by omega)]

lemma packData_buf_ok (s : Option Nat) (fc : Int) (b : Buf)
    (hs : wfSerial s) (hf0 : 0 ≤ fc) (hf1 : fc ≤ 255) (hb : b.len ≤ 56) :
    ∃ d, packData s fc (Payload.buf b) = Except.ok d ∧
      ∀ i, i < b.len → d.data (8 + i) = b.data i := by
  obtain ⟨d2, he, hlen, hz⟩ :=
    packData_eq_payloadStep s fc (Payload.buf b) hs hf0 hf1
  by_cases h0 : b.len = 0
  · refine ⟨d2, ?_, fun i hi => absurd hi (by omega)⟩
    rw [he]
    show d2.fill b 8 (8 + b.len) = Except.ok d2
    exact fill_empty_src (by omega) (by omega) h0
  · refine ⟨⟨d2.len, fun i =>
        if 8 ≤ i ∧ i < 8 + b.len then b.data ((i - 8) % b.len)
        else d2.data i⟩, ?_, ?_⟩
    · rw [he]
      show d2.fill b 8 (8 + b.len) = _
      exact fill_eq (by omega) (by omega) h0
    · intro i hi
      show (if 8 ≤ 8 + i ∧ 8 + i < 8 + b.len
            then b.data ((8 + i - 8) % b.len) else d2.data (8 + i)) = b.data i
      rw [if_pos ⟨by omega, by omega⟩]
      have h8 : 8 + i - 8 = i := by omega
      rw [h8, Nat.mod_eq_of_lt hi]

lemma packData_buf_err (s : Option Nat) (fc : Int) (b : Buf)
    (hs : wfSerial s) (hf0 : 0 ≤ fc) (hf1 : fc ≤ 255) (hb : 56 < b.len) :
    packData s fc (Payload.buf b) = Except.error ("RangeError") := by
  obtain ⟨d2, he, hlen, hz⟩ :=
    packData_eq_payloadStep s fc (Payload.buf b) hs hf0 hf1
  rw [he]
  show d2.fill b 8 (8 + b.len) = Except.error ("RangeError")
  exact fill_oob (by omega)

lemma packData_str_ok (s : Option Nat) (fc : Int) (cs : List Char)
    (hs : wfSerial s) (hf0 : 0 ≤ fc) (hf1 : fc ≤ 255) :
    ∃ d, packData s fc (Payload.str cs) = Except.ok d ∧
      ∀ i, i < min (decodeHexPairs (stripJsWs cs)).length 56 →
        d.data (8 + i) = (decodeHexPairs (stripJsWs cs)).getD i 0 := by
  obtain ⟨d2, he, hlen, hz⟩ :=
    packData_eq_payloadStep s fc (Payload.str cs) hs hf0 hf1
  by_cases hcs : cs.isEmpty
  · have hnil : cs = [] := List.isEmpty_iff.mp hcs
    subst hnil
    refine ⟨d2, by rw [he]; rfl, fun i hi => ?_⟩
    simp [stripJsWs, decodeHexPairs] at hi
  · refine ⟨⟨d2.len, fun i =>
        if 8 ≤ i ∧ i < 8 + min (decodeHexPairs (stripJsWs cs)).length (d2.len - 8)
        then (decodeHexPairs (stripJsWs cs)).getD (i - 8) 0
        else d2.data i⟩, ?_, ?_⟩
    · rw [he]
      unfold payloadStep
      rw [if_pos (by simp [Payload.truthy, hcs])]
      exact writeHexAt_eq (by omega)
    · intro i hi
      show (if 8 ≤ 8 + i ∧
              8 + i < 8 + min (decodeHexPairs (stripJsWs cs)).length (d2.len - 8)
            then (decodeHexPairs (stripJsWs cs)).getD (8 + i - 8) 0
            else d2.data (8 + i)) = (decodeHexPairs (stripJsWs cs)).getD i 0
      rw [if_pos ⟨by omega, by omega⟩]
      have h8 : 8 + i - 8 = i := by omega
      rw [h8]

/-! ### Hex rendering of IP octets -/

lemma hexDigitVal_digitChar : ∀ k, k < 16 →
    hexDigitVal (if k < 10 then Char.ofNat (48 + k) else Char.ofNat (87 + k)) =
      Option.some k := by decide

lemma decode_byteToHexChars (n : Nat) (rest : List Char) :
    decodeHexPairs (byteToHexChars n ++ rest) =
      (16 * (n / 16 % 16) + n % 16) :: decodeHexPairs rest := by
  have h1 := hexDigitVal_digitChar (n / 16 % 16) (Nat.mod_lt _ (by norm_num))
  have h2 := hexDigitVal_digitChar (n % 16) (Nat.mod_lt _ (by norm_num))
  simp only [byteToHexChars, List.cons_append, List.nil_append, decodeHexPairs,
    h1, h2]
  rfl

lemma decode_byteToHexChars_nil (n : Nat) :
    decodeHexPairs (byteToHexChars n) = [16 * (n / 16 % 16) + n % 16] := by
  have h := decode_byteToHexChars n []
  simpa using h

lemma ipOctet_lt (ip : String) (k : Nat) : ipOctet ip k < 256 :=
  Nat.mod_lt _ (by norm_num)

lemma byte_hex_roundtrip (n : Nat) (h : n < 256) :
    16 * (n / 16 % 16) + n % 16 = n := by omega

lemma ipToHex_decode (ip : String) :
    decodeHexPairs ((ipToHex ip).data) =
      [ipOctet ip 0, ipOctet ip 1, ipOctet ip 2, ipOctet ip 3] := by
  show decodeHexPairs
      (byteToHexChars (ipOctet ip 0) ++ byteToHexChars (ipOctet ip 1) ++
       byteToHexChars (ipOctet ip 2) ++ byteToHexChars (ipOctet ip 3)) = _
  rw [List.append_assoc, List.append_assoc, decode_byteToHexChars,
      decode_byteToHexChars, decode_byteToHexChars, decode_byteToHexChars_nil,
      byte_hex_roundtrip _ (ipOctet_lt ip 0), byte_hex_roundtrip _ (ipOctet_lt ip 1),
      byte_hex_roundtrip _ (ipOctet_lt ip 2), byte_hex_roundtrip _ (ipOctet_lt ip 3)]

/-! ### Transport layer lemmas -/

lemma sendData_eq {c : WgCtl} {fc : Int} {p : Payload} {d : Buf}
    (h : packData c.serial fc p = Except.ok d) :
    sendData c fc p =
      Except.ok (if c.isLocal then localSendData c d
                 else [Effect.tcpWrite d]) := by
  unfold sendData
  rw [h, except_ok_bind]

lemma sendData_err {c : WgCtl} {fc : Int} {p : Payload} {e : String}
    (h : packData c.serial fc p = Except.error e) :
    sendData c fc p = Except.error e := by
  unfold sendData
  rw [h]
  rfl

lemma lastFrame_append_single (l : List Effect) (e : Effect) :
    lastFrame (l ++ [e]) = frameOfEffect e := by
  unfold lastFrame
  rw [List.getLast?_concat]
  rfl

lemma lastFrame_localSendData (c : WgCtl) (d : Buf) :
    lastFrame (localSendData c d) = Option.some d := by
  unfold localSendData
  rw [lastFrame_append_single]
  rfl

lemma lastFrame_route (c : WgCtl) (d : Buf) :
    lastFrame (if c.isLocal then localSendData c d
               else [Effect.tcpWrite d]) = Option.some d := by
  by_cases hl : c.isLocal
  · rw [if_pos hl, lastFrame_localSendData]
  · rw [if_neg hl]
    rfl

lemma lastFrame_append_of_last {a b : List Effect} {f : Buf}
    (h : lastFrame b = Option.some f) : lastFrame (a ++ b) = Option.some f := by
  unfold lastFrame at h ⊢
  have hb : b ≠ [] := by
    intro hnil
    subst hnil
    simp [List.getLast?] at h
  rw [List.getLast?_append_of_ne_nil a hb]
  exact h

lemma framesOf_localSendData (c : WgCtl) (d : Buf) :
    framesOf (localSendData c d) = [d] := by
  unfold framesOf localSendData
  by_cases hip : c.ip = "" <;> simp [hip, frameOfEffect]

lemma framesOf_route (c : WgCtl) (d : Buf) :
    framesOf (if c.isLocal then localSendData c d
              else [Effect.tcpWrite d]) = [d] := by
  by_cases hl : c.isLocal
  · rw [if_pos hl, framesOf_localSendData]
  · rw [if_neg hl]
    rfl

/-! ### Point-fact forward lemmas -/

lemma writeUInt8_facts (b : Buf) (v : Int) (off : Nat)
    (h1 : 0 ≤ v) (h2 : v ≤ 255) (h3 : off + 1 ≤ b.len) :
    ∃ b2, b.writeUInt8 v off = Except.ok b2 ∧ b2.len = b.len ∧
      b2.data off = v.toNat ∧ ∀ i, i ≠ off → b2.data i = b.data i :=
  ⟨_, writeUInt8_eq h1 h2 h3, rfl, by simp, fun i hi => by simp [hi]⟩

lemma writeUInt16LE_facts (b : Buf) (v : Int) (off : Nat)
    (h1 : 0 ≤ v) (h2 : v ≤ 65535) (h3 : off + 2 ≤ b.len) :
    ∃ b2, b.writeUInt16LE v off = Except.ok b2 ∧ b2.len = b.len ∧
      b2.data off = v.toNat % 256 ∧ b2.data (off + 1) = v.toNat / 256 % 256 ∧
      ∀ i, i ≠ off → i ≠ off + 1 → b2.data i = b.data i := by
  refine ⟨_, writeUInt16LE_eq h1 h2 h3, rfl, by simp, ?_, ?_⟩
  · simp [show off + 1 ≠ off by omega]
  · intro i hi1 hi2
    simp [hi1, hi2]

lemma writeHexAt_facts (b : Buf) (s : List Char) (off : Nat) (h : off ≤ b.len) :
    ∃ b2, b.writeHexAt s off = Except.ok b2 ∧ b2.len = b.len :=
  ⟨_, writeHexAt_eq h, rfl⟩

lemma writeHexAt_ipToHex_alloc (n : Nat) (ips : String) (hn : 4 ≤ n) :
    (Buf.alloc n).writeHexAt ((ipToHex ips).data) 0 =
      Except.ok ⟨n, fun i => if i < 4 then ipOctet ips i else 0⟩ := by
  rw [writeHexAt_eq (Nat.zero_le _)]
  refine congrArg Except.ok ?_
  rw [Buf.mk.injEq]
  refine ⟨rfl, funext fun i => ?_⟩
  rw [ipToHex_decode]
  have hmin : min ([ipOctet ips 0, ipOctet ips 1, ipOctet ips 2,
      ipOctet ips 3].length) ((Buf.alloc n).len - 0) = 4 := by
    show min 4 (n - 0) = 4
    omega
  rw [hmin]
  by_cases hi : i < 4
  · rw [if_pos ⟨Nat.zero_le _, by omega⟩, if_pos hi]
    show [ipOctet ips 0, ipOctet ips 1, ipOctet ips 2,
          ipOctet ips 3].getD (i - 0) 0 = ipOctet ips i
    interval_cases i <;> rfl
  · rw [if_neg (by omega), if_neg hi]
    rfl

lemma writeHexAt_ipOctets (n : Nat) (ips : String) (hn : 4 ≤ n) :
    ∃ b, (Buf.alloc n).writeHexAt ((ipToHex ips).data) 0 = Except.ok b ∧
      b.len = n ∧ (∀ i, i < 4 → b.data i = ipOctet ips i) ∧
      (∀ i, 4 ≤ i → b.data i = 0) := by
  refine ⟨⟨n, fun i => if i < 4 then ipOctet ips i else 0⟩,
          writeHexAt_ipToHex_alloc n ips hn, rfl, ?_, ?_⟩
  · intro i hi
    show (if i < 4 then ipOctet ips i else 0) = ipOctet ips i
    rw [if_pos hi]
  · intro i hi
    show (if i < 4 then ipOctet ips i else 0) = 0
    rw [if_neg (by omega)]

lemma sendBuf_ok (c : WgCtl) (fc : Int) (pb : Buf)
    (hs : wfSerial c.serial) (hf0 : 0 ≤ fc) (hf1 : fc ≤ 255) (hb : pb.len ≤ 56) :
    ∃ fx f, sendData c fc (Payload.buf pb) = Except.ok fx ∧
      lastFrame fx = Option.some f ∧ f.len = 64 ∧ f.data 0 = 23 ∧
      f.data 1 = fc.toNat ∧ ∀ i, i < pb.len → f.data (8 + i) = pb.data i := by
  obtain ⟨d, hd, hcopy⟩ := packData_buf_ok c.serial fc pb hs hf0 hf1 hb
  have hinv := packData_inv hd
  exact ⟨_, d, sendData_eq hd, lastFrame_route c d, hinv.1, hinv.2.1,
         hinv.2.2.1, hcopy⟩

lemma setServerAddress_ok (c : WgCtl) (sip : String) (sp iv : Int)
    (hs : wfSerial c.serial) (hp0 : 0 ≤ sp) (hp1 : sp ≤ 65535)
    (hi0 : 0 ≤ iv) (hi1 : iv ≤ 255) :
    ∃ fx f, c.setServerAddress sip sp iv = Except.ok (c, fx) ∧
      lastFrame fx = Option.some f ∧ f.len = 64 ∧ f.data 0 = 23 ∧
      f.data 1 = 144 ∧
      (∀ i, i < 4 → f.data (8 + i) = ipOctet sip i) ∧
      f.data 12 = sp.toNat % 256 ∧ f.data 13 = sp.toNat / 256 % 256 ∧
      f.data 14 = iv.toNat := by
  obtain ⟨b0, e0, hb0len, hb0ip, hb0z⟩ := writeHexAt_ipOctets 7 sip (by norm_num)
  obtain ⟨b1, e1, hb1len, hb1p4, hb1p5, hb1o⟩ :=
    writeUInt16LE_facts b0 sp 4 hp0 hp1 (by omega)
  obtain ⟨b2, e2, hb2len, hb2p6, hb2o⟩ :=
    writeUInt8_facts b1 iv 6 hi0 hi1 (by omega)
  obtain ⟨fx, f, hsd, hlast, hflen, hfm, hffc, hfcopy⟩ :=
    sendBuf_ok c 0x90 b2 hs (by norm_num) (by norm_num) (by omega)
  refine ⟨fx, f, ?_, hlast, hflen, hfm, by rw [hffc]; rfl, ?_, ?_, ?_, ?_⟩
  · unfold WgCtl.setServerAddress
    rw [e0, except_ok_bind, e1, except_ok_bind, e2, except_ok_bind, hsd,
        except_ok_bind]
  · intro i hi
    have hc : f.data (8 + i) = b2.data i := hfcopy i (by omega)
    rw [hc, hb2o i (by omega), hb1o i (by omega) (by omega), hb0ip i hi]
  · have hc : f.data 12 = b2.data 4 := hfcopy 4 (by omega)
    rw [hc, hb2o 4 (by omega), hb1p4]
  · have hc : f.data 13 = b2.data 5 := hfcopy 5 (by omega)
    rw [hc, hb2o 5 (by omega)]
    exact hb1p5
  · have hc : f.data 14 = b2.data 6 := hfcopy 6 (by omega)
    rw [hc, hb2p6]

lemma setAddressPayload_ok (ip subnet gateway : String) :
    ∃ p, setAddressPayload ip subnet gateway = Except.ok p ∧ p.len = 16 := by
  have h16 : (Buf.alloc 16).len = 16 := rfl
  obtain ⟨p0, e0, hp0⟩ := writeHexAt_facts (Buf.alloc 16)
    ((ipToHex ip).data) 0 (Nat.zero_le _)
  obtain ⟨p1, e1, hp1⟩ := writeHexAt_facts p0
    ((ipToHex subnet).data) 4 (by omega)
  obtain ⟨p2, e2, hp2⟩ := writeHexAt_facts p1
    ((ipToHex gateway).data) 8 (by omega)
  obtain ⟨p3, e3, hp3⟩ := writeHexAt_facts p2
    (("55aaaa55").data) 12 (by omega)
  refine ⟨p3, ?_, by omega⟩
  unfold setAddressPayload
  rw [e0, except_ok_bind, e1, except_ok_bind, e2, except_ok_bind, e3]

lemma detectHandleReply_mismatch {c : WgCtl} {r : Reply}
    (h1 : c.serial ≠ Option.some r.serial) :
    detectHandleReply c r = (c, false) := by
  unfold detectHandleReply
  rw [if_pos (Ne.symm h1)]

lemma detectHandleReply_sentinel {c : WgCtl} {r : Reply}
    (h1 : c.serial = Option.some r.serial) (h2 : r.ip = ("192.168.0.0")) :
    detectHandleReply c r = ({ c with ip := "" }, true) := by
  unfold detectHandleReply
  rw [if_neg (by simp [h1]), if_pos h2]

lemma detectHandleReply_resolved {c : WgCtl} {r : Reply}
    (h1 : c.serial = Option.some r.serial) (h2 : r.ip ≠ ("192.168.0.0")) :
    detectHandleReply c r = ({ c with ip := r.ip }, true) := by
  unfold detectHandleReply
  rw [if_neg (by simp [h1]), if_neg h2]

lemma detect_resolved_case (c : WgCtl) (r : Reply) (sip : String) (sp : Nat)
    (hsip : c.serverIp = Option.some sip) (hsp : c.serverPort = Option.some sp)
    (hsipe : sip ≠ "") (hsp0 : sp ≠ 0) (hsp16 : sp ≤ 65535)
    (hs : wfSerial c.serial) (hloc : c.isLocal = true)
    (c1 : WgCtl) (hser1 : c1.serial = c.serial)
    (hh : detectHandleReply c r = (c1, true)) :
    ∃ fx f, detect c r = Except.ok (c1, true, fx) ∧
      lastFrame fx = Option.some f ∧ f.data 1 = 144 ∧
      (∀ i, i < 4 → f.data (8 + i) = ipOctet sip i) ∧
      f.data 12 + 256 * f.data 13 = sp ∧ f.data 14 = 0 := by
  have hguard : ¬(sip = "" ∨ sp = 0) := by
    push_neg
    exact ⟨hsipe, hsp0⟩
  obtain ⟨dS, hdS, _⟩ := packData_none_ok c.serial 0x94 hs (by norm_num) (by norm_num)
  have hs1 : wfSerial c1.serial := by rw [hser1]; exact hs
  obtain ⟨fx2, f, hss, hlast, hflen, hfm, hffc, hfip, h12, h13, h14⟩ :=
    setServerAddress_ok c1 sip (sp : Int) 0 hs1 (by omega) (by omega)
      (by norm_num) (by norm_num)
  refine ⟨(if c.isLocal then localSendData c dS else [Effect.tcpWrite dS]) ++ fx2,
          f, ?_, lastFrame_append_of_last hlast, by rw [hffc], hfip, ?_, ?_⟩
  · unfold detect
    simp only [hsip, hsp]
    rw [if_neg hguard, sendData_eq hdS, except_ok_bind,
        if_pos hloc, if_pos (show (detectHandleReply c r).2 = true by rw [hh]),
        show (detectHandleReply c r).1 = c1 by rw [hh], hss, except_ok_bind]
  · rw [h12, h13]
    have htn : ((sp : Int)).toNat = sp := rfl
    rw [htn]
    omega
  · rw [h14]
    rfl

lemma writeUInt32LE_facts (b : Buf) (v : Int) (off : Nat)
    (h1 : 0 ≤ v) (h2 : v ≤ 4294967295) (h3 : off + 4 ≤ b.len) :
    ∃ b2, b.writeUInt32LE v off = Except.ok b2 ∧ b2.len = b.len ∧
      ∀ i, i < off ∨ off + 4 ≤ i → b2.data i = b.data i := by
  refine ⟨_, writeUInt32LE_eq h1 h2 h3, rfl, ?_⟩
  intro i hi
  simp [show i ≠ off by omega, show i ≠ off + 1 by omega,
        show i ≠ off + 2 by omega, show i ≠ off + 3 by omega]

lemma writeHexAt_outside {b : Buf} {s : List Char} {off : Nat} {b2 : Buf}
    (h : b.writeHexAt s off = Except.ok b2) :
    ∀ i, i < off ∨ off + min (decodeHexPairs s).length (b.len - off) ≤ i →
      b2.data i = b.data i := by
  unfold Buf.writeHexAt at h
  by_cases hc : b.len < off
  · rw [if_pos hc] at h
    exact Except.noConfusion h
  · rw [if_neg hc] at h
    injection h with h4
    subst h4
    intro i hi
    show (if off ≤ i ∧ i < off + min (decodeHexPairs s).length (b.len - off)
          then (decodeHexPairs s).getD (i - off) 0 else b.data i) = b.data i
    rw [if_neg (by omega)]

lemma localSend_broadcast (c : WgCtl) (d : Buf) (h : c.ip = "") :
    localSendData c d =
      [Effect.setBroadcast true,
       Effect.udpSend d c.port ("255.255.255.255")] := by
  unfold localSendData
  rw [if_pos h, if_pos h]
  rfl

lemma localSend_unicast (c : WgCtl) (d : Buf) (h : c.ip ≠ "") :
    localSendData c d = [Effect.udpSend d c.port c.ip] := by
  unfold localSendData
  rw [if_neg h, if_neg h]
  rfl

lemma stateAfter_bind_pure (c : WgCtl) (x : Except String (List Effect)) :
    stateAfter c (Except.bind x (fun fx => Except.ok (c, fx))) = c := by
  cases x <;> rfl

lemma stateAfter_bind2 (c : WgCtl) (x : Except String Buf)
    (g : Buf → Except String (List Effect)) :
    stateAfter c (Except.bind x (fun pay =>
      Except.bind (g pay) (fun fx => Except.ok (c, fx)))) = c := by
  cases x with
  | error e => rfl
  | ok pay =>
    simp only [except_ok_bind]
    cases g pay <;> rfl

lemma stateAfter_bind4 (c : WgCtl) (x : Except String Buf)
    (g1 g2 : Buf → Except String Buf)
    (g3 : Buf → Except String (List Effect)) :
    stateAfter c (Except.bind x (fun p0 =>
      Except.bind (g1 p0) (fun p1 =>
      Except.bind (g2 p1) (fun p2 =>
      Except.bind (g3 p2) (fun fx => Except.ok (c, fx)))))) = c := by
  cases x with
  | error e => rfl
  | ok p0 =>
    simp only [except_ok_bind]
    cases g1 p0 with
    | error e => rfl
    | ok p1 =>
      simp only [except_ok_bind]
      cases g2 p1 with
      | error e => rfl
      | ok p2 =>
        simp only [except_ok_bind]
        cases g3 p2 <;> rfl

/-! ### Claim theorems -/

/-- C1 (code bug): the spec requires that constructing an instance with a
Remote (TCP) transport while a server-callback ip or port argument is set
raises a configuration error synchronously. The constructor's guard reads
the instance fields `this.serverIp`/`this.serverPort`, which are never
assigned in the TCP branch, instead of the constructor arguments, so the
guard is always false and construction succeeds: evaluating the
constructor at such an input yields a normally constructed instance whose
callback fields are simply dropped, with no error. -/
theorem construct_remote_with_callback_succeeds :
    WgCtl.construct false (Option.some 1001) (Option.some ("10.0.0.5"))
      (Option.some 9000) ("") 60000 =
      Except.ok { ip := "", port := 60000, serial := Option.some 1001,
                  isLocal := false, serverIp := Option.none,
                  serverPort := Option.none } := rfl

/-- C3 counterexample: with a 57-byte byte-sequence payload the frame
encoder does not produce a buffer at all — the underlying `fill` raises a
range error — refuting "for every payload the encoder produces a 64-byte
buffer". -/
theorem packData_oversized_buffer_no_frame :
    exceptOk (packData (Option.some 1001) 0x40 (Payload.buf (Buf.alloc 57)))
      = false := rfl

/-- C3 (amended): whenever the frame encoder succeeds — which it does not
for byte-sequence payloads longer than 56 bytes — the produced buffer is
exactly 64 bytes with byte 0 = 0x17 and byte 1 = the function code. -/
theorem packData_header_bytes (s : Option Nat) (fc : Int) (p : Payload)
    (d : Buf) (h : packData s fc p = Except.ok d) :
    d.len = 64 ∧ d.data 0 = 23 ∧ d.data 1 = fc.toNat := by
  have hi := packData_inv h
  exact ⟨hi.1, hi.2.1, hi.2.2.1⟩

/-- Witness for the amended C3 theorem at a concrete input. -/
theorem packData_header_bytes_witness :
    ((packData (Option.some 1001) 0x40 Payload.none).map
        (fun d => (d.len, d.data 0, d.data 1))) = Except.ok (64, 23, 64) := by
  cases hh : packData (Option.some 1001) 0x40 Payload.none with
  | error e =>
      have hok : exceptOk (packData (Option.some 1001) 0x40 Payload.none)
          = true := rfl
      rw [hh] at hok
      simp [exceptOk] at hok
  | ok d =>
      have h3 := packData_header_bytes (Option.some 1001) 0x40 Payload.none d hh
      show Except.ok (d.len, d.data 0, d.data 1) = Except.ok (64, 23, 64)
      rw [h3.1, h3.2.1, h3.2.2]
      rfl

/-- C9 (confirmed): on every frame the encoder produces, a configured
nonzero serial S is written little-endian at offsets 4-7 (the four bytes
reconstruct S), while an absent serial or serial 0 leaves offsets 4-7
zero. -/
theorem packData_serial_bytes (s : Option Nat) (fc : Int) (p : Payload)
    (d : Buf) (h : packData s fc p = Except.ok d) :
    (∀ v, s = Option.some v → v ≠ 0 →
       d.data 4 + 256 * d.data 5 + 65536 * d.data 6 +
         16777216 * d.data 7 = v) ∧
    ((s = Option.none ∨ s = Option.some 0) →
       d.data 4 = 0 ∧ d.data 5 = 0 ∧ d.data 6 = 0 ∧ d.data 7 = 0) := by
  have hi := packData_inv h
  refine ⟨?_, hi.2.2.2.2.2.2.2.1⟩
  intro v hv hne
  obtain ⟨hb, h4, h5, h6, h7⟩ := hi.2.2.2.2.2.2.2.2 v hv hne
  rw [h4, h5, h6, h7]
  omega

/-- Witness for the C9 theorem at a concrete input (serial 0x01020304). -/
theorem packData_serial_bytes_witness :
    ((packData (Option.some 16909060) 0x32 Payload.none).map
        (fun d => d.data 4 + 256 * d.data 5 + 65536 * d.data 6 +
          16777216 * d.data 7)) = Except.ok 16909060 := by
  cases hh : packData (Option.some 16909060) 0x32 Payload.none with
  | error e =>
      have hok : exceptOk (packData (Option.some 16909060) 0x32 Payload.none)
          = true := rfl
      rw [hh] at hok
      simp [exceptOk] at hok
  | ok d =>
      have h9 := (packData_serial_bytes (Option.some 16909060) 0x32
        Payload.none d hh).1 16909060 rfl (by norm_num)
      show Except.ok (d.data 4 + 256 * d.data 5 + 65536 * d.data 6 +
        16777216 * d.data 7) = Except.ok 16909060
      rw [h9]

/-- C7 (confirmed): a Local-transport send with no cached device ip enables
broadcast mode and targets the all-ones broadcast address 255.255.255.255;
with a cached ip it goes unicast to that ip — on the configured port in
both cases. -/
theorem localSendData_targets (c : WgCtl) (d : Buf) :
    (c.ip = "" → localSendData c d =
       [Effect.setBroadcast true,
        Effect.udpSend d c.port ("255.255.255.255")]) ∧
    (c.ip ≠ "" → localSendData c d = [Effect.udpSend d c.port c.ip]) :=
  ⟨localSend_broadcast c d, localSend_unicast c d⟩

/-- Witness for the C7 theorem at concrete states with unknown and known
device ip. -/
theorem localSendData_targets_witness :
    localSendData sampleLocal (Buf.alloc 64) =
      [Effect.setBroadcast true,
       Effect.udpSend (Buf.alloc 64) 60000 ("255.255.255.255")] ∧
    localSendData sampleKnown (Buf.alloc 64) =
      [Effect.udpSend (Buf.alloc 64) 60000 ("10.0.0.42")] := by
  constructor
  · exact (localSendData_targets sampleLocal (Buf.alloc 64)).1 rfl
  · exact (localSendData_targets sampleKnown (Buf.alloc 64)).2 (by decide)

/-- C8 (confirmed): for every ip, subnet and gateway argument `setAddress`
succeeds and clears the cached device ip as a side effect, independent of
the payload content; a Local send from the resulting state therefore
targets the broadcast address. -/
theorem setAddress_clears_cached_ip (c : WgCtl) (ip subnet gateway : String)
    (hs : wfSerial c.serial) :
    (∃ fx, c.setAddress ip subnet gateway =
       Except.ok ({ c with ip := "" }, fx)) ∧
    (∀ d : Buf, localSendData { c with ip := "" } d =
       [Effect.setBroadcast true,
        Effect.udpSend d c.port ("255.255.255.255")]) := by
  constructor
  · obtain ⟨p, hp, hplen⟩ := setAddressPayload_ok ip subnet gateway
    obtain ⟨d, hd, _⟩ := packData_buf_ok c.serial 0x96 p hs (by norm_num)
      (by norm_num) (by omega)
    refine ⟨(if c.isLocal then localSendData c d else [Effect.tcpWrite d]), ?_⟩
    unfold WgCtl.setAddress
    rw [hp, except_ok_bind, sendData_eq hd, except_ok_bind]
  · intro d
    exact localSend_broadcast ({ c with ip := "" }) d rfl

/-- Witness for the C8 theorem at a concrete state with a known ip. -/
theorem setAddress_clears_cached_ip_witness :
    ((sampleKnown.setAddress ("10.0.0.9") ("255.255.255.0") ("10.0.0.1")).map
        (fun x => x.1.ip)) = Except.ok ("") := by
  obtain ⟨fx, hfx⟩ := (setAddress_clears_cached_ip sampleKnown ("10.0.0.9")
    ("255.255.255.0") ("10.0.0.1")
    (by show (1001 : Nat) ≤ 4294967295; norm_num)).1
  rw [hfx]
  rfl

/-- C2 (confirmed): a discovery reply whose serial differs from the
instance serial leaves the cached device ip (indeed the whole state)
unchanged and does not advance past Searching — the only frames emitted
are search probes (function 0x94), no `setServerAddress` is issued for
that reply. A matching reply with the sentinel ip 192.168.0.0 clears the
cached ip and still issues `setServerAddress` (function 0x90) carrying the
configured callback ip, port (little-endian at payload offsets 4-5) and
interval 0; a matching reply with any other ip caches that ip and likewise
issues `setServerAddress` with the configured callback target. -/
theorem detect_reply_transitions (c : WgCtl) (r : Reply) (sip : String)
    (sp : Nat)
    (hsip : c.serverIp = Option.some sip) (hsp : c.serverPort = Option.some sp)
    (hsipe : sip ≠ "") (hsp0 : sp ≠ 0) (hsp16 : sp ≤ 65535)
    (hs : wfSerial c.serial) (hloc : c.isLocal = true) :
    (c.serial ≠ Option.some r.serial →
       ∃ fx, detect c r = Except.ok (c, false, fx) ∧
         ∀ b ∈ framesOf fx, b.data 1 = 148) ∧
    (c.serial = Option.some r.serial → r.ip = ("192.168.0.0") →
       ∃ fx f, detect c r = Except.ok ({ c with ip := "" }, true, fx) ∧
         lastFrame fx = Option.some f ∧ f.data 1 = 144 ∧
         (∀ i, i < 4 → f.data (8 + i) = ipOctet sip i) ∧
         f.data 12 + 256 * f.data 13 = sp ∧ f.data 14 = 0) ∧
    (c.serial = Option.some r.serial → r.ip ≠ ("192.168.0.0") →
       ∃ fx f, detect c r = Except.ok ({ c with ip := r.ip }, true, fx) ∧
         lastFrame fx = Option.some f ∧ f.data 1 = 144 ∧
         (∀ i, i < 4 → f.data (8 + i) = ipOctet sip i) ∧
         f.data 12 + 256 * f.data 13 = sp ∧ f.data 14 = 0) := by
  refine ⟨?_, ?_, ?_⟩
  · intro h1
    have hguard : ¬(sip = "" ∨ sp = 0) := by
      push_neg
      exact ⟨hsipe, hsp0⟩
    obtain ⟨dS, hdS, _⟩ := packData_none_ok c.serial 0x94 hs (by norm_num)
      (by norm_num)
    refine ⟨(if c.isLocal then localSendData c dS else [Effect.tcpWrite dS]),
            ?_, ?_⟩
    · unfold detect
      simp only [hsip, hsp]
      rw [if_neg hguard, sendData_eq hdS, except_ok_bind, if_pos hloc,
          if_neg (show ¬(detectHandleReply c r).2 = true by
            rw [detectHandleReply_mismatch h1]; simp),
          show (detectHandleReply c r).1 = c by
            rw [detectHandleReply_mismatch h1]]
    · intro b hb
      rw [framesOf_route, List.mem_singleton] at hb
      subst hb
      have hinv := packData_inv hdS
      rw [hinv.2.2.1]
      rfl
  · intro h1 h2
    exact detect_resolved_case c r sip sp hsip hsp hsipe hsp0 hsp16 hs hloc
      ({ c with ip := "" }) rfl (detectHandleReply_sentinel h1 h2)
  · intro h1 h2
    exact detect_resolved_case c r sip sp hsip hsp hsipe hsp0 hsp16 hs hloc
      ({ c with ip := r.ip }) rfl (detectHandleReply_resolved h1 h2)

/-- Witness for the C2 theorem: a mismatched-serial reply, a matching
reply with the sentinel ip, and a matching reply with a real ip, all on a
concrete local instance. -/
theorem detect_reply_transitions_witness :
    ((detect sampleLocal ⟨1002, ("10.0.0.42")⟩).map
        (fun x => (x.1.ip, x.2.1))) = Except.ok ("", false) ∧
    ((detect sampleLocal ⟨1001, ("192.168.0.0")⟩).map
        (fun x => (x.1.ip, x.2.1))) = Except.ok ("", true) ∧
    ((detect sampleLocal ⟨1001, ("10.0.0.42")⟩).map
        (fun x => (x.1.ip, x.2.1))) = Except.ok (("10.0.0.42"), true) := by
  have hw : wfSerial sampleLocal.serial := by
    show (1001 : Nat) ≤ 4294967295
    norm_num
  refine ⟨?_, ?_, ?_⟩
  · obtain ⟨fx, he, _⟩ :=
      (detect_reply_transitions sampleLocal ⟨1002, ("10.0.0.42")⟩ ("10.0.0.5")
        9000 rfl rfl (by decide) (by decide) (by decide) hw rfl).1 (by decide)
    rw [he]
    rfl
  · obtain ⟨fx, f, he, _⟩ :=
      (detect_reply_transitions sampleLocal ⟨1001, ("192.168.0.0")⟩ ("10.0.0.5")
        9000 rfl rfl (by decide) (by decide) (by decide) hw rfl).2.1 rfl rfl
    rw [he]
    rfl
  · obtain ⟨fx, f, he, _⟩ :=
      (detect_reply_transitions sampleLocal ⟨1001, ("10.0.0.42")⟩ ("10.0.0.5")
        9000 rfl rfl (by decide) (by decide) (by decide) hw rfl).2.2 rfl
        (by decide)
    rw [he]
    rfl

/-- C5 counterexample: `openDoor 300` raises a range error to the caller —
the out-of-range door number is not silently truncated or wrapped,
refuting "no error is raised to the caller for any numeric input". -/
theorem openDoor_out_of_range_throws :
    exceptOk (sampleLocal.openDoor 300) = false := rfl

/-- C5 (amended): the command methods perform no explicit range validation
of their own, but out-of-range numeric arguments are not silently
truncated or wrapped either: the underlying byte write rejects them and
the resulting range error propagates to the caller. An in-range door
number (0-255) is written into the frame at offset 8 unvalidated; an
out-of-range one makes `openDoor` fail. -/
theorem openDoor_range_behavior (c : WgCtl) (door : Int)
    (hs : wfSerial c.serial) :
    (0 ≤ door → door ≤ 255 →
       ∃ fx f, c.openDoor door = Except.ok (c, fx) ∧
         lastFrame fx = Option.some f ∧ f.data 1 = 64 ∧
         f.data 8 = door.toNat) ∧
    ((door < 0 ∨ 255 < door) → exceptOk (c.openDoor door) = false) := by
  constructor
  · intro h0 h1
    obtain ⟨d, hd, h8⟩ := packData_num_ok c.serial 0x40 door hs (by norm_num)
      (by norm_num) h0 h1
    have hinv := packData_inv hd
    refine ⟨_, d, ?_, lastFrame_route c d, by rw [hinv.2.2.1]; rfl, h8⟩
    unfold WgCtl.openDoor
    rw [sendData_eq hd, except_ok_bind]
  · intro h
    have herr := packData_num_err c.serial 0x40 door hs (by norm_num)
      (by norm_num) h
    unfold WgCtl.openDoor
    rw [sendData_err herr]
    rfl

/-- Witness for the amended C5 theorem: an in-range door is written into
the frame, an out-of-range door fails. -/
theorem openDoor_range_behavior_witness :
    ((sampleLocal.openDoor 3).map
        (fun x => (lastFrame x.2).map (fun f => f.data 8)))
      = Except.ok (Option.some 3) ∧
    exceptOk (sampleLocal.openDoor 472) = false := by
  have hw : wfSerial sampleLocal.serial := by
    show (1001 : Nat) ≤ 4294967295
    norm_num
  constructor
  · obtain ⟨fx, f, he, hlast, _, h8⟩ :=
      (openDoor_range_behavior sampleLocal 3 hw).1 (by norm_num) (by norm_num)
    rw [he]
    show Except.ok ((lastFrame fx).map (fun f => f.data 8)) = _
    rw [hlast]
    show Except.ok (Option.some (f.data 8)) = _
    rw [h8]
    rfl
  · exact (openDoor_range_behavior sampleLocal 472 hw).2 (by norm_num)

/-- C4 counterexample: a 60-byte byte-sequence payload is not truncated to
the 64-byte buffer bounds — the encoder raises a range error instead of
succeeding, refuting "the encoder succeeds for any payload length". -/
theorem packData_buffer_payload_not_truncated :
    exceptOk (packData (Option.some 1001) 0x50 (Payload.buf (Buf.alloc 60)))
      = false := rfl

/-- C4 (amended): a byte-sequence payload of at most 56 bytes is copied
verbatim into the frame starting at offset 8, while a longer byte sequence
makes the encoder throw a range error rather than truncate; a single
unsigned-byte payload is written at offset 8 (the value 0, being falsy, is
treated as an absent payload, which leaves offset 8 zero and thus
coincides with writing it); a hex-string payload has whitespace stripped
and is decoded into bytes starting at offset 8, truncated to the frame's
remaining 56 bytes; an absent payload leaves offsets 8 and above zero. -/
theorem packData_payload_placement (s : Option Nat) (fc : Int)
    (hs : wfSerial s) (hf0 : 0 ≤ fc) (hf1 : fc ≤ 255) :
    (∀ b : Buf, b.len ≤ 56 →
       ∃ d, packData s fc (Payload.buf b) = Except.ok d ∧
         ∀ i, i < b.len → d.data (8 + i) = b.data i) ∧
    (∀ b : Buf, 56 < b.len →
       exceptOk (packData s fc (Payload.buf b)) = false) ∧
    (∀ v : Int, 0 ≤ v → v ≤ 255 →
       ∃ d, packData s fc (Payload.num v) = Except.ok d ∧
         d.data 8 = v.toNat) ∧
    (∀ cs : List Char,
       ∃ d, packData s fc (Payload.str cs) = Except.ok d ∧
         ∀ i, i < min (decodeHexPairs (stripJsWs cs)).length 56 →
           d.data (8 + i) = (decodeHexPairs (stripJsWs cs)).getD i 0) ∧
    (∃ d, packData s fc Payload.none = Except.ok d ∧
       ∀ i, 8 ≤ i → d.data i = 0) := by
  refine ⟨fun b hb => packData_buf_ok s fc b hs hf0 hf1 hb,
          fun b hb => ?_,
          fun v hv0 hv1 => packData_num_ok s fc v hs hf0 hf1 hv0 hv1,
          fun cs => packData_str_ok s fc cs hs hf0 hf1,
          packData_none_ok s fc hs hf0 hf1⟩
  rw [packData_buf_err s fc b hs hf0 hf1 hb]
  rfl

/-- Witness for the amended C4 theorem: each payload form at a concrete
input. -/
theorem packData_payload_placement_witness :
    ((packData (Option.some 7) 0x30 (Payload.buf ⟨3, fun _ => 9⟩)).map
        (fun d => d.data 8)) = Except.ok 9 ∧
    exceptOk (packData (Option.some 7) 0x30 (Payload.buf (Buf.alloc 58)))
      = false ∧
    ((packData (Option.some 7) 0x30 (Payload.num 5)).map (fun d => d.data 8))
      = Except.ok 5 ∧
    ((packData (Option.some 7) 0x30 (Payload.str (("20 19").data))).map
        (fun d => (d.data 8, d.data 9))) = Except.ok (32, 25) ∧
    ((packData (Option.some 7) 0x30 Payload.none).map (fun d => d.data 8))
      = Except.ok 0 := by
  have ht := packData_payload_placement (Option.some 7) 0x30
    (by show (7 : Nat) ≤ 4294967295; norm_num) (by norm_num) (by norm_num)
  refine ⟨?_, ?_, ?_, ?_, ?_⟩
  · obtain ⟨d, hd, hcopy⟩ := ht.1 ⟨3, fun _ => 9⟩ (by norm_num)
    rw [hd]
    show Except.ok (d.data 8) = Except.ok 9
    have h8 : d.data 8 = 9 := hcopy 0 (by norm_num)
    rw [h8]
  · exact ht.2.1 (Buf.alloc 58) (by show (56 : Nat) < 58; norm_num)
  · obtain ⟨d, hd, h8⟩ := ht.2.2.1 5 (by norm_num) (by norm_num)
    rw [hd]
    show Except.ok (d.data 8) = Except.ok 5
    rw [h8]
    rfl
  · obtain ⟨d, hd, hcopy⟩ := ht.2.2.2.1 (("20 19").data)
    rw [hd]
    show Except.ok (d.data 8, d.data 9) = Except.ok (32, 25)
    have h8 : d.data 8 = 32 := hcopy 0 (by decide)
    have h9 : d.data 9 = 25 := hcopy 1 (by decide)
    rw [h8, h9]
  · obtain ⟨d, hd, hz⟩ := ht.2.2.2.2
    rw [hd]
    show Except.ok (d.data 8) = Except.ok 0
    rw [hz 8 (by norm_num)]

/-- C6 (confirmed): for door ∈ {1,2,3,4}, the setAuth payload has exactly
one of offsets 12-15 equal to 1 — the one matching the door — and the
other three equal to 0; for any other door value none of offsets 12-15
equals 1. -/
theorem setAuth_door_flags (cardNo door : Int)
    (h0 : 0 ≤ cardNo) (h1 : cardNo ≤ 4294967295) :
    ∃ p, setAuthPayload cardNo door = Except.ok p ∧
      ((door = 1 ∨ door = 2 ∨ door = 3 ∨ door = 4) →
         p.data (11 + door.toNat) = 1 ∧
         ∀ j, 12 ≤ j → j ≤ 15 → j ≠ 11 + door.toNat → p.data j = 0) ∧
      (¬(door = 1 ∨ door = 2 ∨ door = 3 ∨ door = 4) →
         ∀ j, 12 ≤ j → j ≤ 15 → p.data j ≠ 1) := by
  have h16 : (Buf.alloc 16).len = 16 := rfl
  obtain ⟨p0, e0, hl0, ho0⟩ := writeUInt32LE_facts (Buf.alloc 16)
    cardNo 0 h0 h1 (by omega)
  obtain ⟨p1, e1, hl1⟩ := writeHexAt_facts p0
    (("20190101").data) 4 (by omega)
  obtain ⟨p2, e2, hl2⟩ := writeHexAt_facts p1
    (("20291231").data) 8 (by omega)
  obtain ⟨p3, e3, hl3, h12, ho3⟩ := writeUInt8_facts p2
    (if door = 1 then 1 else 0) 12
    (by split <;> norm_num) (by split <;> norm_num) (by omega)
  obtain ⟨p4, e4, hl4, h13, ho4⟩ := writeUInt8_facts p3
    (if door = 2 then 1 else 0) 13
    (by split <;> norm_num) (by split <;> norm_num) (by omega)
  obtain ⟨p5, e5, hl5, h14, ho5⟩ := writeUInt8_facts p4
    (if door = 3 then 1 else 0) 14
    (by split <;> norm_num) (by split <;> norm_num) (by omega)
  obtain ⟨p6, e6, hl6, h15, ho6⟩ := writeUInt8_facts p5
    (if door = 4 then 1 else 0) 15
    (by split <;> norm_num) (by split <;> norm_num) (by omega)
  have q12 : p6.data 12 = (if door = 1 then (1 : Int) else 0).toNat := by
    rw [ho6 12 (by omega), ho5 12 (by omega), ho4 12 (by omega)]
    exact h12
  have q13 : p6.data 13 = (if door = 2 then (1 : Int) else 0).toNat := by
    rw [ho6 13 (by omega), ho5 13 (by omega)]
    exact h13
  have q14 : p6.data 14 = (if door = 3 then (1 : Int) else 0).toNat := by
    rw [ho6 14 (by omega)]
    exact h14
  have q15 : p6.data 15 = (if door = 4 then (1 : Int) else 0).toNat := h15
  refine ⟨p6, ?_, ?_, ?_⟩
  · unfold setAuthPayload
    rw [e0, except_ok_bind, e1, except_ok_bind, e2, except_ok_bind,
        e3, except_ok_bind, e4, except_ok_bind, e5, except_ok_bind, e6]
  · intro hd
    rcases hd with h | h | h | h
    · subst h
      refine ⟨?_, ?_⟩
      · show p6.data 12 = 1
        simp [q12]
      · intro j hj1 hj2 hne
        interval_cases j
        · exact absurd rfl hne
        · simp [q13]
        · simp [q14]
        · simp [q15]
    · subst h
      refine ⟨?_, ?_⟩
      · show p6.data 13 = 1
        simp [q13]
      · intro j hj1 hj2 hne
        interval_cases j
        · simp [q12]
        · exact absurd rfl hne
        · simp [q14]
        · simp [q15]
    · subst h
      refine ⟨?_, ?_⟩
      · show p6.data 14 = 1
        simp [q14]
      · intro j hj1 hj2 hne
        interval_cases j
        · simp [q12]
        · simp [q13]
        · exact absurd rfl hne
        · simp [q15]
    · subst h
      refine ⟨?_, ?_⟩
      · show p6.data 15 = 1
        simp [q15]
      · intro j hj1 hj2 hne
        interval_cases j
        · simp [q12]
        · simp [q13]
        · simp [q14]
        · exact absurd rfl hne
  · intro hnd j hj1 hj2
    have hd1 : door ≠ 1 := fun hx => hnd (Or.inl hx)
    have hd2 : door ≠ 2 := fun hx => hnd (Or.inr (Or.inl hx))
    have hd3 : door ≠ 3 := fun hx => hnd (Or.inr (Or.inr (Or.inl hx)))
    have hd4 : door ≠ 4 := fun hx => hnd (Or.inr (Or.inr (Or.inr hx)))
    have b12 : p6.data 12 = 0 := by simp [q12, hd1]
    have b13 : p6.data 13 = 0 := by simp [q13, hd2]
    have b14 : p6.data 14 = 0 := by simp [q14, hd3]
    have b15 : p6.data 15 = 0 := by simp [q15, hd4]
    interval_cases j <;> simp [b12, b13, b14, b15]

/-- Witness for the C6 theorem: door 2 sets exactly offset 13; door 9 sets
none of offsets 12-15 to 1. -/
theorem setAuth_door_flags_witness :
    ((setAuthPayload 12345 2).map
        (fun p => (p.data 12, p.data 13, p.data 14, p.data 15)))
      = Except.ok (0, 1, 0, 0) ∧
    ((setAuthPayload 12345 9).map (fun p =>
        (decide (p.data 12 = 1), decide (p.data 13 = 1),
         decide (p.data 14 = 1), decide (p.data 15 = 1))))
      = Except.ok (false, false, false, false) := by
  constructor
  · obtain ⟨p, hp, hin, _⟩ := setAuth_door_flags 12345 2 (by norm_num)
      (by norm_num)
    obtain ⟨hb13, hrest⟩ := hin (Or.inr (Or.inl rfl))
    have b13 : p.data 13 = 1 := hb13
    have b12 : p.data 12 = 0 := hrest 12 (by norm_num) (by norm_num) (by decide)
    have b14 : p.data 14 = 0 := hrest 14 (by norm_num) (by norm_num) (by decide)
    have b15 : p.data 15 = 0 := hrest 15 (by norm_num) (by norm_num) (by decide)
    rw [hp]
    show Except.ok (p.data 12, p.data 13, p.data 14, p.data 15) = _
    rw [b12, b13, b14, b15]
  · obtain ⟨p, hp, _, hout⟩ := setAuth_door_flags 12345 9 (by norm_num)
      (by norm_num)
    have hn := hout (by norm_num)
    rw [hp]
    show Except.ok
        (decide (p.data 12 = 1), decide (p.data 13 = 1),
         decide (p.data 14 = 1), decide (p.data 15 = 1))
      = Except.ok (false, false, false, false)
    rw [decide_eq_false (hn 12 (by norm_num) (by norm_num)),
        decide_eq_false (hn 13 (by norm_num) (by norm_num)),
        decide_eq_false (hn 14 (by norm_num) (by norm_num)),
        decide_eq_false (hn 15 (by norm_num) (by norm_num))]

/-- C10 (confirmed): every public command other than setAddress — search,
openDoor, getDate, setDate, setAuth, getAuth, removeAuth, clearAuth,
setServerAddress, getServerAddress — leaves the instance state (and hence
the cached ip, port and serial fields) unchanged, whether the send
succeeds or throws; setAddress and the discovery reply handler preserve
port and serial, so only they ever mutate the cached ip. -/
theorem commands_preserve_state (c : WgCtl) (door cardNoA cardNoG cardNoR : Int)
    (bcd : Buf) (sip : String) (sport sintv : Int) (aip asub agw : String)
    (r : Reply) :
    stateAfter c c.search = c ∧
    stateAfter c (c.openDoor door) = c ∧
    stateAfter c c.getDate = c ∧
    stateAfter c (c.setDate bcd) = c ∧
    stateAfter c (c.setAuth cardNoA door) = c ∧
    stateAfter c (c.getAuth cardNoG) = c ∧
    stateAfter c (c.removeAuth cardNoR) = c ∧
    stateAfter c c.clearAuth = c ∧
    stateAfter c (c.setServerAddress sip sport sintv) = c ∧
    stateAfter c c.getServerAddress = c ∧
    (stateAfter c (c.setAddress aip asub agw)).port = c.port ∧
    (stateAfter c (c.setAddress aip asub agw)).serial = c.serial ∧
    (detectHandleReply c r).1.port = c.port ∧
    (detectHandleReply c r).1.serial = c.serial := by
  refine ⟨?_, ?_, ?_, ?_, ?_, ?_, ?_, ?_, ?_, ?_, ?_, ?_, ?_, ?_⟩
  · exact stateAfter_bind_pure c _
  · exact stateAfter_bind_pure c _
  · exact stateAfter_bind_pure c _
  · exact stateAfter_bind_pure c _
  · exact stateAfter_bind2 c _ _
  · exact stateAfter_bind2 c _ _
  · exact stateAfter_bind2 c _ _
  · exact stateAfter_bind_pure c _
  · exact stateAfter_bind4 c _ _ _ _
  · exact stateAfter_bind_pure c _
  · unfold WgCtl.setAddress
    cases hx : setAddressPayload aip asub agw with
    | error e => rfl
    | ok p =>
      simp only [except_ok_bind]
      cases sendData c 0x96 (Payload.buf p) <;> rfl
  · unfold WgCtl.setAddress
    cases hx : setAddressPayload aip asub agw with
    | error e => rfl
    | ok p =>
      simp only [except_ok_bind]
      cases sendData c 0x96 (Payload.buf p) <;> rfl
  · unfold detectHandleReply
    split
    · rfl
    · split <;> rfl
  · unfold detectHandleReply
    split
    · rfl
    · split <;> rfl
